import Mathlib

/-!
Shallow embedding of the WebRTC signaling service
(`src/webrtc/service.go` of shahmir-k/pionly-stunturn-server-seperate-logging).

The server keeps two package-level maps guarded by one RWMutex:
  nameToUserSession : username -> *UserSession
  sessionIdToName   : connection remote address -> username
and a set of message handlers (HandleJoin, HandleCall, ...) dispatched by a
websocket read loop (HandleWebSocket).

Modelling choices:
  * A transport connection is identified by a `Nat` (its remote-address
    string is modelled by that same identity, one address per connection).
  * Go maps are modelled as association lists; Go `m[k] = v` is
    erase-then-append, `delete(m, k)` is erase; lookups take the first hit.
  * Pointer mutation of a `UserSession` found in the map is modelled by
    rewriting the entry in place (`setInCall`), which is observationally
    the same because sessions are reachable only through the map.
  * Network writes are modelled as explicit `Effect` values returned by
    each handler next to the post-state; logging is not modelled.
  * Lock usage is modelled separately as event traces (`Ev`), transcribed
    from the Lock/Unlock/RLock/RUnlock calls in the source.
-/

set_option autoImplicit false

namespace Webrtc

/-- One row of the roster sent in `activeUsers` messages (Go type `ActiveUser`). -/
structure ActiveUser where
  Name : String
  InCall : Bool
  deriving DecidableEq

/-- The `Data` field of a signaling message.  In Go it is `any`; the server
either leaves it nil (`none`), fills in a `JoinResult`, fills in an
`ActiveUsers` roster, or passes through an opaque client payload (`blob`). -/
inductive MsgData where
  | none
  | joinResult (result : Bool)
  | activeUsers (users : List ActiveUser)
  | blob (payload : String)
  deriving DecidableEq

/-- Go type `SignalingMessage` with fields Type/Sender/Receiver/Data
(`ty` stands for the Go field `Type`, which is a Lean keyword). -/
structure SignalingMessage where
  ty : String
  Sender : String
  Receiver : String
  Data : MsgData
  deriving DecidableEq

/-- Modelled from the spec: the per-participant Session (§3) with identity,
attached transport handle (nil-able) and call-busy flag.  The Go type
`UserSession` with fields `Name`, `Conn`, `InCall` is declared in a models
file that is not part of src/; the fields are exactly the ones the handlers
in `service.go` read and write. -/
structure UserSession where
  Name : String
  Conn : Option Nat
  InCall : Bool
  deriving DecidableEq

/-- The package-level registry state of `service.go`:
`nameToUserSession` and `sessionIdToName`. -/
structure ServerState where
  nameToUserSession : List (String × UserSession)
  sessionIdToName : List (Nat × String)
  deriving DecidableEq

/-- An observable network write performed by a handler:
`reply c m` is `conn.WriteJSON(m)` on the handling connection `c`;
`send t m` is `session.Send(m)` on a session whose channel is `t`. -/
inductive Effect where
  | reply (conn : Nat) (m : SignalingMessage)
  | send (target : Option Nat) (m : SignalingMessage)
  deriving DecidableEq

/-- First-hit association-list lookup (Go map read `m[k]`). -/
def lookupA {α β : Type} [DecidableEq α] : List (α × β) → α → Option β
  | [], _ => Option.none
  | p :: rest, a => if p.1 = a then some p.2 else lookupA rest a

/-- Remove every entry with the given key (Go `delete(m, k)`). -/
def eraseA {α β : Type} [DecidableEq α] : List (α × β) → α → List (α × β)
  | [], _ => []
  | p :: rest, a => if p.1 = a then eraseA rest a else p :: eraseA rest a

/-- Go map write `m[k] = v`: replace any old binding by a fresh one. -/
def insertA {α β : Type} [DecidableEq α] (l : List (α × β)) (a : α) (b : β) :
    List (α × β) :=
  eraseA l a ++ [(a, b)]

/-- Remove every entry whose value is the given name — the
`keysToDelete` cleanup loop of `HandleJoin` over `sessionIdToName`. -/
def eraseVal : List (Nat × String) → String → List (Nat × String)
  | [], _ => []
  | p :: rest, n => if p.2 = n then eraseVal rest n else p :: eraseVal rest n

/-- Modelled from the spec: `SetBusy` (§4.1) mutates one Session's `inCall`
flag; the Go method `UserSession.SetInCall` lives in the missing models file. -/
def UserSession.SetInCall (s : UserSession) (b : Bool) : UserSession :=
  ⟨s.Name, s.Conn, b⟩

/-- Modelled from the spec: the gateway `send(message)` operation (§4.4)
writes one message to the session's own channel; the Go method
`UserSession.Send` lives in the missing models file. -/
def UserSession.Send (s : UserSession) (m : SignalingMessage) : Effect :=
  Effect.send s.Conn m

/-- In-place update of the session stored under `name`
(pointer mutation `session.SetInCall(b)` through the map). -/
def setInCall (m : List (String × UserSession)) (name : String) (b : Bool) :
    List (String × UserSession) :=
  m.map (fun p => if p.1 = name then (p.1, p.2.SetInCall b) else p)

/-- The roster built by `HandleActiveUsers` and `BroadcastActiveUsers`:
one `ActiveUser` per registered session (channel-less sessions included). -/
def rosterOf (st : ServerState) : List ActiveUser :=
  st.nameToUserSession.map (fun p => ⟨p.1, p.2.InCall⟩)

/-- The `activeUsers` message carrying the roster of `st`. -/
def activeUsersMsg (st : ServerState) : SignalingMessage :=
  ⟨"activeUsers", "", "", MsgData.activeUsers (rosterOf st)⟩

/-- The send loop of `BroadcastActiveUsers`: one `session.Send(message)`
per session whose `Conn` is non-nil, in map order. -/
def broadcastSends : List (String × UserSession) → SignalingMessage → List Effect
  | [], _ => []
  | p :: rest, m =>
    match p.2.Conn with
    | some _ => p.2.Send m :: broadcastSends rest m
    | Option.none => broadcastSends rest m

/-- `BroadcastActiveUsers`: snapshot the roster, then send it to every
session holding a live channel. -/
def BroadcastActiveUsers (st : ServerState) : List Effect :=
  broadcastSends st.nameToUserSession (activeUsersMsg st)

/-- The shared tail of `HandleJoin` (lines 122-161 of `service.go`): remove
any stale session and its reverse-index entries, install the fresh session,
reply `JoinResult{true}`, broadcast. -/
def joinInstall (conn : Nat) (name : String) (st : ServerState) :
    ServerState × List Effect :=
  let st1 : ServerState :=
    match lookupA st.nameToUserSession name with
    | some _ =>
        ⟨eraseA st.nameToUserSession name, eraseVal st.sessionIdToName name⟩
    | Option.none => st
  let st2 : ServerState :=
    ⟨insertA st1.nameToUserSession name ⟨name, some conn, false⟩,
     insertA st1.sessionIdToName conn name⟩
  (st2,
   Effect.reply conn ⟨"join", "", name, MsgData.joinResult true⟩ ::
     BroadcastActiveUsers st2)

/-- `HandleJoin`: reject with `JoinResult{false}` if the name has a session
with a non-nil channel, otherwise (re)install the session. -/
def HandleJoin (conn : Nat) (msg : SignalingMessage) (st : ServerState) :
    ServerState × List Effect :=
  let name := msg.Sender
  match lookupA st.nameToUserSession name with
  | some existingSession =>
      if existingSession.Conn ≠ Option.none then
        (st, [Effect.reply conn ⟨"join", "", name, MsgData.joinResult false⟩])
      else joinInstall conn name st
  | Option.none => joinInstall conn name st

/-- `HandleActiveUsers`: unicast the current roster to the requester. -/
def HandleActiveUsers (conn : Nat) (_msg : SignalingMessage) (st : ServerState) :
    ServerState × List Effect :=
  (st, [Effect.reply conn (activeUsersMsg st)])

/-- `HandleCall`: if both parties are registered and neither is in a call,
set both busy, forward a bare `call` message to the receiver and broadcast;
otherwise do nothing. -/
def HandleCall (_conn : Nat) (msg : SignalingMessage) (st : ServerState) :
    ServerState × List Effect :=
  let sender := msg.Sender
  let receiver := msg.Receiver
  match lookupA st.nameToUserSession sender,
        lookupA st.nameToUserSession receiver with
  | some senderSession, some receiverSession =>
      if senderSession.InCall || receiverSession.InCall then (st, [])
      else
        let st2 : ServerState :=
          ⟨setInCall (setInCall st.nameToUserSession sender true) receiver true,
           st.sessionIdToName⟩
        (st2,
         receiverSession.Send ⟨"call", sender, receiver, MsgData.none⟩ ::
           BroadcastActiveUsers st2)
  | _, _ => (st, [])

/-- `HandleCancelCall`: if both parties are registered, clear both busy
flags, forward a bare `cancelCall` to the receiver and broadcast. -/
def HandleCancelCall (_conn : Nat) (msg : SignalingMessage) (st : ServerState) :
    ServerState × List Effect :=
  let sender := msg.Sender
  let receiver := msg.Receiver
  match lookupA st.nameToUserSession sender,
        lookupA st.nameToUserSession receiver with
  | some _, some receiverSession =>
      let st2 : ServerState :=
        ⟨setInCall (setInCall st.nameToUserSession sender false) receiver false,
         st.sessionIdToName⟩
      (st2,
       receiverSession.Send ⟨"cancelCall", sender, receiver, MsgData.none⟩ ::
         BroadcastActiveUsers st2)
  | _, _ => (st, [])

/-- `HandleAcceptCall`: forward a bare `acceptCall` to the receiver if
registered; no state change, no broadcast. -/
def HandleAcceptCall (_conn : Nat) (msg : SignalingMessage) (st : ServerState) :
    ServerState × List Effect :=
  match lookupA st.nameToUserSession msg.Receiver with
  | some receiverSession =>
      (st, [receiverSession.Send
              ⟨"acceptCall", msg.Sender, msg.Receiver, MsgData.none⟩])
  | Option.none => (st, [])

/-- `HandleOffer`: forward the opaque payload to the receiver if registered. -/
def HandleOffer (_conn : Nat) (msg : SignalingMessage) (st : ServerState) :
    ServerState × List Effect :=
  match lookupA st.nameToUserSession msg.Receiver with
  | some receiverSession =>
      (st, [receiverSession.Send ⟨"offer", msg.Sender, msg.Receiver, msg.Data⟩])
  | Option.none => (st, [])

/-- `HandleAnswer`: forward the opaque payload to the receiver if registered. -/
def HandleAnswer (_conn : Nat) (msg : SignalingMessage) (st : ServerState) :
    ServerState × List Effect :=
  match lookupA st.nameToUserSession msg.Receiver with
  | some receiverSession =>
      (st, [receiverSession.Send ⟨"answer", msg.Sender, msg.Receiver, msg.Data⟩])
  | Option.none => (st, [])

/-- `HandleIceCandidate`: forward the opaque payload to the receiver if
registered. -/
def HandleIceCandidate (_conn : Nat) (msg : SignalingMessage) (st : ServerState) :
    ServerState × List Effect :=
  match lookupA st.nameToUserSession msg.Receiver with
  | some receiverSession =>
      (st, [receiverSession.Send
              ⟨"candidate", msg.Sender, msg.Receiver, msg.Data⟩])
  | Option.none => (st, [])

/-- `HandleHangUp`: if both parties are registered, clear both busy flags,
forward a bare `hangUp` to the receiver and broadcast. -/
def HandleHangUp (_conn : Nat) (msg : SignalingMessage) (st : ServerState) :
    ServerState × List Effect :=
  let sender := msg.Sender
  let receiver := msg.Receiver
  match lookupA st.nameToUserSession sender,
        lookupA st.nameToUserSession receiver with
  | some _, some receiverSession =>
      let st2 : ServerState :=
        ⟨setInCall (setInCall st.nameToUserSession sender false) receiver false,
         st.sessionIdToName⟩
      (st2,
       receiverSession.Send ⟨"hangUp", sender, receiver, MsgData.none⟩ ::
         BroadcastActiveUsers st2)
  | _, _ => (st, [])

/-- `HandleDisconnect`: resolve the connection to a name; if found remove
both entries and broadcast, otherwise no-op. -/
def HandleDisconnect (conn : Nat) (st : ServerState) :
    ServerState × List Effect :=
  match lookupA st.sessionIdToName conn with
  | Option.none => (st, [])
  | some userName =>
      let st1 : ServerState :=
        ⟨eraseA st.nameToUserSession userName, eraseA st.sessionIdToName conn⟩
      (st1, BroadcastActiveUsers st1)

/-- Result of dispatching one inbound message in the read loop of
`HandleWebSocket`: the post-state, the network writes, and whether the
switch closed the connection (only the `leave` case does). -/
structure RouteResult where
  state : ServerState
  effects : List Effect
  closed : Bool
  deriving DecidableEq

/-- The 10 message types recognized by the switch in `HandleWebSocket`. -/
def knownTypes : List String :=
  ["join", "activeUsers", "call", "cancelCall", "acceptCall",
   "offer", "answer", "candidate", "hangUp", "leave"]

/-- The switch statement of `HandleWebSocket`: dispatch one message by
`msg.Type`; unknown types are logged only and leave everything alone. -/
def route (conn : Nat) (msg : SignalingMessage) (st : ServerState) :
    RouteResult :=
  match msg.ty with
  | "join" => let r := HandleJoin conn msg st; ⟨r.1, r.2, false⟩
  | "activeUsers" => let r := HandleActiveUsers conn msg st; ⟨r.1, r.2, false⟩
  | "call" => let r := HandleCall conn msg st; ⟨r.1, r.2, false⟩
  | "cancelCall" => let r := HandleCancelCall conn msg st; ⟨r.1, r.2, false⟩
  | "acceptCall" => let r := HandleAcceptCall conn msg st; ⟨r.1, r.2, false⟩
  | "offer" => let r := HandleOffer conn msg st; ⟨r.1, r.2, false⟩
  | "answer" => let r := HandleAnswer conn msg st; ⟨r.1, r.2, false⟩
  | "candidate" => let r := HandleIceCandidate conn msg st; ⟨r.1, r.2, false⟩
  | "hangUp" => let r := HandleHangUp conn msg st; ⟨r.1, r.2, false⟩
  | "leave" => let r := HandleDisconnect conn st; ⟨r.1, r.2, true⟩
  | _ => ⟨st, [], false⟩

/-! ### Association-list lemmas -/

section AssocLemmas

variable {α β : Type} [DecidableEq α]

theorem lookupA_append_some {l1 l2 : List (α × β)} {a : α} {b : β}
    (h : lookupA l1 a = some b) : lookupA (l1 ++ l2) a = some b := by
  induction l1 with
  | nil => simp [lookupA] at h
  | cons p rest ih =>
      simp only [lookupA, List.cons_append] at h ⊢
      split at h
      · rename_i hp
        rw [if_pos hp]
        exact h
      · rename_i hp
        rw [if_neg hp]
        exact ih h

theorem lookupA_append_none {l1 l2 : List (α × β)} {a : α}
    (h : lookupA l1 a = Option.none) :
    lookupA (l1 ++ l2) a = lookupA l2 a := by
  induction l1 with
  | nil => simp [lookupA]
  | cons p rest ih =>
      simp only [lookupA, List.cons_append] at h ⊢
      split at h
      · exact absurd h (by simp)
      · rw [if_neg (by assumption)]
        exact ih h

theorem lookupA_eraseA_self (l : List (α × β)) (a : α) :
    lookupA (eraseA l a) a = Option.none := by
  induction l with
  | nil => rfl
  | cons p rest ih =>
      simp only [eraseA]
      split
      · exact ih
      · simp only [lookupA, if_neg (by assumption)]
        exact ih

theorem lookupA_eraseA_ne {l : List (α × β)} {a x : α} (h : x ≠ a) :
    lookupA (eraseA l a) x = lookupA l x := by
  induction l with
  | nil => rfl
  | cons p rest ih =>
      simp only [eraseA, lookupA]
      split
      · rw [ih]
        rw [if_neg]
        intro hx
        exact h (hx ▸ (by assumption))
      · simp only [lookupA]
        split
        · rfl
        · exact ih

theorem lookupA_insertA_self (l : List (α × β)) (a : α) (b : β) :
    lookupA (insertA l a b) a = some b := by
  unfold insertA
  rw [lookupA_append_none (lookupA_eraseA_self l a)]
  simp [lookupA]

theorem lookupA_insertA_ne {l : List (α × β)} {a x : α} (b : β) (h : x ≠ a) :
    lookupA (insertA l a b) x = lookupA l x := by
  unfold insertA
  rcases heq : lookupA (eraseA l a) x with _ | v
  · rw [lookupA_append_none heq]
    have h2 : lookupA l x = Option.none := by
      rw [← lookupA_eraseA_ne h]
      exact heq
    rw [h2]
    simp only [lookupA]
    rw [if_neg]
    intro hxa
    exact h hxa.symm
  · rw [lookupA_append_some heq, ← lookupA_eraseA_ne h, heq]

theorem mem_eraseA {l : List (α × β)} {a : α} {p : α × β}
    (h : p ∈ eraseA l a) : p ∈ l ∧ p.1 ≠ a := by
  induction l with
  | nil => simp [eraseA] at h
  | cons q rest ih =>
      simp only [eraseA] at h
      split at h
      · rcases ih h with ⟨h1, h2⟩
        exact ⟨List.mem_cons_of_mem _ h1, h2⟩
      · rcases List.mem_cons.mp h with h1 | h1
        · subst h1
          exact ⟨List.mem_cons_self _ _, by assumption⟩
        · rcases ih h1 with ⟨h2, h3⟩
          exact ⟨List.mem_cons_of_mem _ h2, h3⟩

theorem eraseA_sublist (l : List (α × β)) (a : α) :
    List.Sublist (eraseA l a) l := by
  induction l with
  | nil => simp [eraseA]
  | cons q rest ih =>
      simp only [eraseA]
      split
      · exact List.Sublist.cons _ ih
      · exact List.Sublist.cons₂ _ ih

theorem lookupA_mem {l : List (α × β)} {a : α} {b : β}
    (h : lookupA l a = some b) : (a, b) ∈ l := by
  induction l with
  | nil => simp [lookupA] at h
  | cons p rest ih =>
      simp only [lookupA] at h
      split at h
      · cases h
        have : p = (a, p.2) := by
          ext
          · assumption
          · rfl
        rw [← this]
        exact List.mem_cons_self _ _
      · exact List.mem_cons_of_mem _ (ih h)

theorem lookupA_isSome_of_mem {l : List (α × β)} {p : α × β}
    (h : p ∈ l) : (lookupA l p.1).isSome = true := by
  induction l with
  | nil => simp at h
  | cons q rest ih =>
      simp only [lookupA]
      split
      · simp
      · rename_i hq
        rcases List.mem_cons.mp h with h1 | h1
        · exact absurd (congrArg Prod.fst h1).symm hq
        · exact ih h1

end AssocLemmas

theorem mem_eraseVal {l : List (Nat × String)} {n : String} {p : Nat × String}
    (h : p ∈ eraseVal l n) : p ∈ l ∧ p.2 ≠ n := by
  induction l with
  | nil => simp [eraseVal] at h
  | cons q rest ih =>
      simp only [eraseVal] at h
      split at h
      · rcases ih h with ⟨h1, h2⟩
        exact ⟨List.mem_cons_of_mem _ h1, h2⟩
      · rcases List.mem_cons.mp h with h1 | h1
        · subst h1
          exact ⟨List.mem_cons_self _ _, by assumption⟩
        · rcases ih h1 with ⟨h2, h3⟩
          exact ⟨List.mem_cons_of_mem _ h2, h3⟩

theorem eraseVal_sublist (l : List (Nat × String)) (n : String) :
    List.Sublist (eraseVal l n) l := by
  induction l with
  | nil => simp [eraseVal]
  | cons q rest ih =>
      simp only [eraseVal]
      split
      · exact List.Sublist.cons _ ih
      · exact List.Sublist.cons₂ _ ih

theorem lookupA_setInCall (m : List (String × UserSession)) (n x : String)
    (b : Bool) :
    lookupA (setInCall m n b) x =
      Option.map (fun s => if x = n then s.SetInCall b else s) (lookupA m x) := by
  induction m with
  | nil => rfl
  | cons p rest ih =>
      simp only [setInCall, List.map, lookupA]
      by_cases hpn : p.1 = n
      · by_cases hpx : p.1 = x
        · simp [hpn, hpx, lookupA, ← hpx, hpn]
        · simp only [if_pos hpn, lookupA, if_neg hpx]
          simpa [setInCall] using ih
      · by_cases hpx : p.1 = x
        · have : ¬ x = n := fun h => hpn (hpx.trans h)
          simp [hpn, hpx, lookupA, this]
        · simp only [if_neg hpn, lookupA, if_neg hpx]
          simpa [setInCall] using ih

theorem keys_setInCall (m : List (String × UserSession)) (n : String) (b : Bool) :
    (setInCall m n b).map Prod.fst = m.map Prod.fst := by
  induction m with
  | nil => rfl
  | cons p rest ih =>
      simp only [setInCall, List.map] at ih ⊢
      split
      · simpa using ih
      · simpa using ih

theorem conn_setInCall (m : List (String × UserSession)) (n x : String)
    (b : Bool) :
    Option.map UserSession.Conn (lookupA (setInCall m n b) x) =
      Option.map UserSession.Conn (lookupA m x) := by
  rw [lookupA_setInCall]
  rcases lookupA m x with _ | s
  · rfl
  · simp only [Option.map]
    split <;> rfl

theorem isSome_setInCall (m : List (String × UserSession)) (n x : String)
    (b : Bool) :
    (lookupA (setInCall m n b) x).isSome = (lookupA m x).isSome := by
  rw [lookupA_setInCall]
  cases lookupA m x <;> rfl

/-- The `inCall` flag a client would read back for `n` (None if unregistered). -/
def inCallOf (st : ServerState) (n : String) : Option Bool :=
  (lookupA st.nameToUserSession n).map UserSession.InCall

theorem inCall_two_sets (m : List (String × UserSession)) (a b x : String)
    (v : Bool) (hx : x = a ∨ x = b) (hs : (lookupA m x).isSome = true) :
    Option.map UserSession.InCall
        (lookupA (setInCall (setInCall m a v) b v) x) = some v := by
  rw [lookupA_setInCall, lookupA_setInCall]
  rcases hlk : lookupA m x with _ | s
  · rw [hlk] at hs
    simp at hs
  · simp only [Option.map]
    rcases hx with h | h <;> subst h <;> split_ifs <;>
      simp_all [UserSession.SetInCall]

/-! ### Concrete states used by the witnesses -/

/-- The empty registry (both package-level maps empty). -/
def stEmpty : ServerState := ⟨[], []⟩

/-- A registry with two idle users alice (connection 1) and bob (connection 2). -/
def stTwo : ServerState :=
  ⟨[("alice", ⟨"alice", some 1, false⟩), ("bob", ⟨"bob", some 2, false⟩)],
   [(1, "alice"), (2, "bob")]⟩

/-! ### Claims -/

/-- C2: a `call` whose sender is unregistered, whose receiver is
unregistered, or where either party's `inCall` flag is already set, leaves
the registry unchanged and produces no send, reply or broadcast. -/
theorem C2_call_precondition_noop (st : ServerState) (c : Nat)
    (msg : SignalingMessage)
    (h : lookupA st.nameToUserSession msg.Sender = Option.none ∨
         lookupA st.nameToUserSession msg.Receiver = Option.none ∨
         (∃ s, lookupA st.nameToUserSession msg.Sender = some s ∧
            s.InCall = true) ∨
         (∃ s, lookupA st.nameToUserSession msg.Receiver = some s ∧
            s.InCall = true)) :
    HandleCall c msg st = (st, []) := by
  rcases hs : lookupA st.nameToUserSession msg.Sender with _ | s
  · simp [HandleCall, hs]
  · rcases hr : lookupA st.nameToUserSession msg.Receiver with _ | r
    · simp [HandleCall, hs, hr]
    · have hbusy : (s.InCall || r.InCall) = true := by
        rcases h with h | h | ⟨s2, hs2, hc⟩ | ⟨r2, hr2, hc⟩
        · rw [hs] at h
          cases h
        · rw [hr] at h
          cases h
        · rw [hs] at hs2
          cases hs2
          simp [hc]
        · rw [hr] at hr2
          cases hr2
          simp [hc]
      simp [HandleCall, hs, hr, hbusy]

/-- C2 witness: calling from a busy alice in `stTwo` with her flag set. -/
theorem C2_witness :
    HandleCall 1
        ⟨"call", "alice", "bob", MsgData.none⟩
        ⟨[("alice", ⟨"alice", some 1, true⟩), ("bob", ⟨"bob", some 2, false⟩)],
         [(1, "alice"), (2, "bob")]⟩ =
      (⟨[("alice", ⟨"alice", some 1, true⟩), ("bob", ⟨"bob", some 2, false⟩)],
        [(1, "alice"), (2, "bob")]⟩, []) :=
  C2_call_precondition_noop _ 1 _
    (Or.inr (Or.inr (Or.inl ⟨⟨"alice", some 1, true⟩, by decide, rfl⟩)))

/-- C3: a `join` for a name whose session still holds a non-nil channel is
rejected with `JoinResult{false}` on the joining connection and changes
nothing. -/
theorem C3_duplicate_join_rejected (st : ServerState) (c : Nat)
    (msg : SignalingMessage) (s : UserSession)
    (h1 : lookupA st.nameToUserSession msg.Sender = some s)
    (h2 : s.Conn ≠ Option.none) :
    HandleJoin c msg st =
      (st, [Effect.reply c
              ⟨"join", "", msg.Sender, MsgData.joinResult false⟩]) := by
  simp [HandleJoin, h1, h2]

/-- C3 witness: rejoining alice (live on connection 1) from connection 3. -/
theorem C3_witness :
    HandleJoin 3 ⟨"join", "alice", "", MsgData.none⟩ stTwo =
      (stTwo, [Effect.reply 3
                 ⟨"join", "", "alice", MsgData.joinResult false⟩]) :=
  C3_duplicate_join_rejected stTwo 3 _ ⟨"alice", some 1, false⟩
    (by decide) (by decide)

/-- C9: a message whose type is none of the 10 recognized kinds leaves the
state untouched, sends nothing, and the switch neither closes the
connection nor breaks the read loop. -/
theorem C9_unknown_type_noop (st : ServerState) (c : Nat)
    (msg : SignalingMessage) (h : msg.ty ∉ knownTypes) :
    route c msg st = ⟨st, [], false⟩ := by
  unfold route
  split <;> simp_all [knownTypes]

/-- C9 witness: a `videoFilter` message against the two-user registry. -/
theorem C9_witness :
    route 1 ⟨"videoFilter", "alice", "bob", MsgData.blob "sepia"⟩ stTwo =
      ⟨stTwo, [], false⟩ :=
  C9_unknown_type_noop stTwo 1 _ (by decide)

/-- C6: an `offer`, `answer` or `candidate` message to a registered receiver
is forwarded with the inbound type, sender, receiver and payload unmodified
and the registry untouched; to an unregistered receiver nothing at all
happens (no error back to the sender). -/
theorem C6_opaque_forwarding (st : ServerState) (c : Nat)
    (msg : SignalingMessage)
    (hty : msg.ty = "offer" ∨ msg.ty = "answer" ∨ msg.ty = "candidate") :
    (∀ rs, lookupA st.nameToUserSession msg.Receiver = some rs →
        route c msg st =
          ⟨st, [Effect.send rs.Conn
                  ⟨msg.ty, msg.Sender, msg.Receiver, msg.Data⟩], false⟩) ∧
    (lookupA st.nameToUserSession msg.Receiver = Option.none →
        route c msg st = ⟨st, [], false⟩) := by
  constructor
  · intro rs hrs
    unfold route
    split <;>
      simp_all [HandleOffer, HandleAnswer, HandleIceCandidate,
        UserSession.Send]
  · intro hnone
    unfold route
    split <;>
      simp_all [HandleOffer, HandleAnswer, HandleIceCandidate]

/-- C6 witness: an offer from alice to bob is forwarded verbatim, and an
answer to an absent carol is dropped. -/
theorem C6_witness :
    route 1 ⟨"offer", "alice", "bob", MsgData.blob "sdp-offer"⟩ stTwo =
      ⟨stTwo, [Effect.send (some 2)
                 ⟨"offer", "alice", "bob", MsgData.blob "sdp-offer"⟩],
       false⟩ ∧
    route 1 ⟨"answer", "alice", "carol", MsgData.blob "sdp-answer"⟩ stTwo =
      ⟨stTwo, [], false⟩ :=
  ⟨(C6_opaque_forwarding stTwo 1 _ (Or.inl rfl)).1
      ⟨"bob", some 2, false⟩ (by decide),
   (C6_opaque_forwarding stTwo 1 _ (Or.inr (Or.inl rfl))).2 (by decide)⟩

/-- C10: the `call`, `cancelCall`, `acceptCall` and `hangUp` forwards carry
only type, sender and receiver; whatever payload the inbound message had is
replaced by nil before it reaches the receiver. -/
theorem C10_control_forward_drops_payload (st : ServerState) (c : Nat)
    (msg : SignalingMessage) (ss rs : UserSession) :
    (lookupA st.nameToUserSession msg.Sender = some ss →
     lookupA st.nameToUserSession msg.Receiver = some rs →
     ss.InCall = false → rs.InCall = false →
     (HandleCall c msg st).2.head? =
       some (Effect.send rs.Conn
               ⟨"call", msg.Sender, msg.Receiver, MsgData.none⟩)) ∧
    (lookupA st.nameToUserSession msg.Sender = some ss →
     lookupA st.nameToUserSession msg.Receiver = some rs →
     (HandleCancelCall c msg st).2.head? =
       some (Effect.send rs.Conn
               ⟨"cancelCall", msg.Sender, msg.Receiver, MsgData.none⟩)) ∧
    (lookupA st.nameToUserSession msg.Receiver = some rs →
     (HandleAcceptCall c msg st).2 =
       [Effect.send rs.Conn
          ⟨"acceptCall", msg.Sender, msg.Receiver, MsgData.none⟩]) ∧
    (lookupA st.nameToUserSession msg.Sender = some ss →
     lookupA st.nameToUserSession msg.Receiver = some rs →
     (HandleHangUp c msg st).2.head? =
       some (Effect.send rs.Conn
               ⟨"hangUp", msg.Sender, msg.Receiver, MsgData.none⟩)) := by
  refine ⟨?_, ?_, ?_, ?_⟩
  · intro h1 h2 h3 h4
    simp [HandleCall, h1, h2, h3, h4, UserSession.Send]
  · intro h1 h2
    simp [HandleCancelCall, h1, h2, UserSession.Send]
  · intro h2
    simp [HandleAcceptCall, h2, UserSession.Send]
  · intro h1 h2
    simp [HandleHangUp, h1, h2, UserSession.Send]

/-- C10 witness: all four control forwards from alice to bob drop an
attached blob payload. -/
theorem C10_witness :
    (HandleCall 1 ⟨"call", "alice", "bob", MsgData.blob "x"⟩ stTwo).2.head? =
      some (Effect.send (some 2) ⟨"call", "alice", "bob", MsgData.none⟩) ∧
    (HandleCancelCall 1
        ⟨"cancelCall", "alice", "bob", MsgData.blob "x"⟩ stTwo).2.head? =
      some (Effect.send (some 2)
              ⟨"cancelCall", "alice", "bob", MsgData.none⟩) ∧
    (HandleAcceptCall 1
        ⟨"acceptCall", "alice", "bob", MsgData.blob "x"⟩ stTwo).2 =
      [Effect.send (some 2) ⟨"acceptCall", "alice", "bob", MsgData.none⟩] ∧
    (HandleHangUp 1 ⟨"hangUp", "alice", "bob", MsgData.blob "x"⟩ stTwo).2.head? =
      some (Effect.send (some 2) ⟨"hangUp", "alice", "bob", MsgData.none⟩) := by
  have h := C10_control_forward_drops_payload stTwo 1
    ⟨"call", "alice", "bob", MsgData.blob "x"⟩
    ⟨"alice", some 1, false⟩ ⟨"bob", some 2, false⟩
  have h2 := C10_control_forward_drops_payload stTwo 1
    ⟨"cancelCall", "alice", "bob", MsgData.blob "x"⟩
    ⟨"alice", some 1, false⟩ ⟨"bob", some 2, false⟩
  have h3 := C10_control_forward_drops_payload stTwo 1
    ⟨"acceptCall", "alice", "bob", MsgData.blob "x"⟩
    ⟨"alice", some 1, false⟩ ⟨"bob", some 2, false⟩
  have h4 := C10_control_forward_drops_payload stTwo 1
    ⟨"hangUp", "alice", "bob", MsgData.blob "x"⟩
    ⟨"alice", some 1, false⟩ ⟨"bob", some 2, false⟩
  exact ⟨h.1 (by decide) (by decide) rfl rfl,
         h2.2.1 (by decide) (by decide),
         h3.2.2.1 (by decide),
         h4.2.2.2 (by decide) (by decide)⟩

/-- C8: disconnect cleanup is idempotent — the first call removes the two
map entries (when the connection is known) and broadcasts; calling it again
right away changes nothing and sends nothing; an unknown connection is a
no-op from the start. -/
theorem C8_leave_idempotent (st : ServerState) (c : Nat) :
    HandleDisconnect c (HandleDisconnect c st).1 =
      ((HandleDisconnect c st).1, []) ∧
    (∀ n, lookupA st.sessionIdToName c = some n →
      (HandleDisconnect c st).1 =
        ⟨eraseA st.nameToUserSession n, eraseA st.sessionIdToName c⟩ ∧
      (HandleDisconnect c st).2 =
        BroadcastActiveUsers (HandleDisconnect c st).1) ∧
    (lookupA st.sessionIdToName c = Option.none →
      HandleDisconnect c st = (st, [])) := by
  rcases h : lookupA st.sessionIdToName c with _ | n
  · have h1 : HandleDisconnect c st = (st, []) := by
      simp [HandleDisconnect, h]
    refine ⟨?_, ?_, fun _ => h1⟩
    · rw [h1]
      exact h1
    · intro n hn
      cases hn
  · have h1 : HandleDisconnect c st =
        (⟨eraseA st.nameToUserSession n, eraseA st.sessionIdToName c⟩,
         BroadcastActiveUsers
           ⟨eraseA st.nameToUserSession n, eraseA st.sessionIdToName c⟩) := by
      simp [HandleDisconnect, h]
    refine ⟨?_, ?_, ?_⟩
    · rw [h1]
      simp [HandleDisconnect, lookupA_eraseA_self]
    · intro n2 hn2
      cases hn2
      rw [h1]
      exact ⟨rfl, rfl⟩
    · intro hnone
      cases hnone

/-- C1: a `call` between two distinct idle registered users flips both
`inCall` flags to true and forwards a bare `call` to the receiver; a
following `hangUp` or `cancelCall` between the same pair (either
direction) flips both flags back to false. -/
theorem C1_call_symmetry (st : ServerState) (c c2 c3 : Nat)
    (a b x y : String) (d d2 d3 : MsgData) (sa sb : UserSession)
    (hab : a ≠ b)
    (ha : lookupA st.nameToUserSession a = some sa) (ha2 : sa.InCall = false)
    (hb : lookupA st.nameToUserSession b = some sb) (hb2 : sb.InCall = false)
    (hxy : (x = a ∧ y = b) ∨ (x = b ∧ y = a)) :
    inCallOf (HandleCall c ⟨"call", a, b, d⟩ st).1 a = some true ∧
    inCallOf (HandleCall c ⟨"call", a, b, d⟩ st).1 b = some true ∧
    (HandleCall c ⟨"call", a, b, d⟩ st).2.head? =
      some (Effect.send sb.Conn ⟨"call", a, b, MsgData.none⟩) ∧
    inCallOf (HandleHangUp c2 ⟨"hangUp", x, y, d2⟩
        (HandleCall c ⟨"call", a, b, d⟩ st).1).1 a = some false ∧
    inCallOf (HandleHangUp c2 ⟨"hangUp", x, y, d2⟩
        (HandleCall c ⟨"call", a, b, d⟩ st).1).1 b = some false ∧
    inCallOf (HandleCancelCall c3 ⟨"cancelCall", x, y, d3⟩
        (HandleCall c ⟨"call", a, b, d⟩ st).1).1 a = some false ∧
    inCallOf (HandleCancelCall c3 ⟨"cancelCall", x, y, d3⟩
        (HandleCall c ⟨"call", a, b, d⟩ st).1).1 b = some false := by
  have hcall : HandleCall c ⟨"call", a, b, d⟩ st =
      (⟨setInCall (setInCall st.nameToUserSession a true) b true,
        st.sessionIdToName⟩,
       Effect.send sb.Conn ⟨"call", a, b, MsgData.none⟩ ::
         BroadcastActiveUsers
           ⟨setInCall (setInCall st.nameToUserSession a true) b true,
            st.sessionIdToName⟩) := by
    simp [HandleCall, ha, hb, ha2, hb2, UserSession.Send]
  have hsa : (lookupA (setInCall (setInCall st.nameToUserSession a true)
      b true) a).isSome = true := by
    rw [isSome_setInCall, isSome_setInCall, ha]
    rfl
  have hsb : (lookupA (setInCall (setInCall st.nameToUserSession a true)
      b true) b).isSome = true := by
    rw [isSome_setInCall, isSome_setInCall, hb]
    rfl
  have hxs : (lookupA (setInCall (setInCall st.nameToUserSession a true)
      b true) x).isSome = true := by
    rcases hxy with ⟨h1, _⟩ | ⟨h1, _⟩ <;> subst h1
    · exact hsa
    · exact hsb
  have hys : (lookupA (setInCall (setInCall st.nameToUserSession a true)
      b true) y).isSome = true := by
    rcases hxy with ⟨_, h2⟩ | ⟨_, h2⟩ <;> subst h2
    · exact hsb
    · exact hsa
  rcases Option.isSome_iff_exists.mp hxs with ⟨sx, hsx⟩
  rcases Option.isSome_iff_exists.mp hys with ⟨sy, hsy⟩
  have hax : a = x ∨ a = y := by
    rcases hxy with ⟨h1, _⟩ | ⟨_, h2⟩
    · exact Or.inl h1.symm
    · exact Or.inr h2.symm
  have hbx : b = x ∨ b = y := by
    rcases hxy with ⟨_, h2⟩ | ⟨h1, _⟩
    · exact Or.inr h2.symm
    · exact Or.inl h1.symm
  have hhang : HandleHangUp c2 ⟨"hangUp", x, y, d2⟩
      (⟨setInCall (setInCall st.nameToUserSession a true) b true,
        st.sessionIdToName⟩ : ServerState) =
      (⟨setInCall (setInCall (setInCall
          (setInCall st.nameToUserSession a true) b true) x false) y false,
        st.sessionIdToName⟩,
       Effect.send sy.Conn ⟨"hangUp", x, y, MsgData.none⟩ ::
         BroadcastActiveUsers
           ⟨setInCall (setInCall (setInCall
              (setInCall st.nameToUserSession a true) b true) x false) y false,
            st.sessionIdToName⟩) := by
    simp [HandleHangUp, hsx, hsy, UserSession.Send]
  have hcanc : HandleCancelCall c3 ⟨"cancelCall", x, y, d3⟩
      (⟨setInCall (setInCall st.nameToUserSession a true) b true,
        st.sessionIdToName⟩ : ServerState) =
      (⟨setInCall (setInCall (setInCall
          (setInCall st.nameToUserSession a true) b true) x false) y false,
        st.sessionIdToName⟩,
       Effect.send sy.Conn ⟨"cancelCall", x, y, MsgData.none⟩ ::
         BroadcastActiveUsers
           ⟨setInCall (setInCall (setInCall
              (setInCall st.nameToUserSession a true) b true) x false) y false,
            st.sessionIdToName⟩) := by
    simp [HandleCancelCall, hsx, hsy, UserSession.Send]
  refine ⟨?_, ?_, ?_, ?_, ?_, ?_, ?_⟩
  · rw [hcall]
    exact inCall_two_sets _ a b a true (Or.inl rfl) (by rw [ha]; rfl)
  · rw [hcall]
    exact inCall_two_sets _ a b b true (Or.inr rfl) (by rw [hb]; rfl)
  · rw [hcall]
    rfl
  · rw [hcall]
    show inCallOf (HandleHangUp c2 ⟨"hangUp", x, y, d2⟩ _).1 a = some false
    rw [hhang]
    exact inCall_two_sets _ x y a false hax hsa
  · rw [hcall]
    show inCallOf (HandleHangUp c2 ⟨"hangUp", x, y, d2⟩ _).1 b = some false
    rw [hhang]
    exact inCall_two_sets _ x y b false hbx hsb
  · rw [hcall]
    show inCallOf (HandleCancelCall c3 ⟨"cancelCall", x, y, d3⟩ _).1 a =
      some false
    rw [hcanc]
    exact inCall_two_sets _ x y a false hax hsa
  · rw [hcall]
    show inCallOf (HandleCancelCall c3 ⟨"cancelCall", x, y, d3⟩ _).1 b =
      some false
    rw [hcanc]
    exact inCall_two_sets _ x y b false hbx hsb

/-- C4: a `join` for an unregistered name, or for a name whose session has
a nil channel, removes the stale session and every reverse-index entry for
that name, installs a fresh session with the new channel and `inCall`
false, indexes the new connection, replies `JoinResult{true}` and then
broadcasts the roster.  (The consistency hypothesis `hcons` — reverse
entries for a name only exist while the name is registered — holds in every
reachable state.) -/
theorem C4_rejoin_after_stale (st : ServerState) (c : Nat)
    (msg : SignalingMessage)
    (hfree : lookupA st.nameToUserSession msg.Sender = Option.none ∨
      (∃ s, lookupA st.nameToUserSession msg.Sender = some s ∧
         s.Conn = Option.none))
    (hcons : ∀ p ∈ st.sessionIdToName, p.2 = msg.Sender →
      (lookupA st.nameToUserSession msg.Sender).isSome = true) :
    lookupA (HandleJoin c msg st).1.nameToUserSession msg.Sender =
      some ⟨msg.Sender, some c, false⟩ ∧
    lookupA (HandleJoin c msg st).1.sessionIdToName c = some msg.Sender ∧
    (∀ p ∈ (HandleJoin c msg st).1.sessionIdToName,
      p.2 = msg.Sender → p.1 = c) ∧
    (∀ n, n ≠ msg.Sender →
      lookupA (HandleJoin c msg st).1.nameToUserSession n =
        lookupA st.nameToUserSession n) ∧
    (HandleJoin c msg st).2 =
      Effect.reply c ⟨"join", "", msg.Sender, MsgData.joinResult true⟩ ::
        BroadcastActiveUsers (HandleJoin c msg st).1 := by
  rcases hfree with hnone | ⟨s, hs, hsc⟩
  · have hj : HandleJoin c msg st =
        (⟨insertA st.nameToUserSession msg.Sender
            ⟨msg.Sender, some c, false⟩,
          insertA st.sessionIdToName c msg.Sender⟩,
         Effect.reply c ⟨"join", "", msg.Sender, MsgData.joinResult true⟩ ::
           BroadcastActiveUsers
             ⟨insertA st.nameToUserSession msg.Sender
                ⟨msg.Sender, some c, false⟩,
              insertA st.sessionIdToName c msg.Sender⟩) := by
      simp [HandleJoin, joinInstall, hnone]
    have h1 : (HandleJoin c msg st).1.nameToUserSession =
        insertA st.nameToUserSession msg.Sender
          ⟨msg.Sender, some c, false⟩ := by
      rw [hj]
    have h2 : (HandleJoin c msg st).1.sessionIdToName =
        insertA st.sessionIdToName c msg.Sender := by
      rw [hj]
    refine ⟨?_, ?_, ?_, ?_, ?_⟩
    · rw [h1]
      exact lookupA_insertA_self _ _ _
    · rw [h2]
      exact lookupA_insertA_self _ _ _
    · intro p hp hpv
      rw [h2] at hp
      rcases List.mem_append.mp hp with hl | hr
      · rcases mem_eraseA hl with ⟨hmem, _⟩
        have hsome := hcons p hmem hpv
        rw [hnone] at hsome
        cases hsome
      · simp only [List.mem_singleton] at hr
        rw [hr]
    · intro n hn
      rw [h1]
      exact lookupA_insertA_ne _ hn
    · rw [hj]
  · have hj : HandleJoin c msg st =
        (⟨insertA (eraseA st.nameToUserSession msg.Sender) msg.Sender
            ⟨msg.Sender, some c, false⟩,
          insertA (eraseVal st.sessionIdToName msg.Sender) c msg.Sender⟩,
         Effect.reply c ⟨"join", "", msg.Sender, MsgData.joinResult true⟩ ::
           BroadcastActiveUsers
             ⟨insertA (eraseA st.nameToUserSession msg.Sender) msg.Sender
                ⟨msg.Sender, some c, false⟩,
              insertA (eraseVal st.sessionIdToName msg.Sender) c
                msg.Sender⟩) := by
      simp [HandleJoin, joinInstall, hs, hsc]
    have h1 : (HandleJoin c msg st).1.nameToUserSession =
        insertA (eraseA st.nameToUserSession msg.Sender) msg.Sender
          ⟨msg.Sender, some c, false⟩ := by
      rw [hj]
    have h2 : (HandleJoin c msg st).1.sessionIdToName =
        insertA (eraseVal st.sessionIdToName msg.Sender) c msg.Sender := by
      rw [hj]
    refine ⟨?_, ?_, ?_, ?_, ?_⟩
    · rw [h1]
      exact lookupA_insertA_self _ _ _
    · rw [h2]
      exact lookupA_insertA_self _ _ _
    · intro p hp hpv
      rw [h2] at hp
      rcases List.mem_append.mp hp with hl | hr
      · rcases mem_eraseA hl with ⟨hmem, _⟩
        rcases mem_eraseVal hmem with ⟨_, hne⟩
        exact absurd hpv hne
      · simp only [List.mem_singleton] at hr
        rw [hr]
    · intro n hn
      rw [h1, lookupA_insertA_ne _ hn]
      exact lookupA_eraseA_ne hn
    · rw [hj]

/-! ### Lock-usage traces (C7)

Each handler's `mu.Lock`/`Unlock`/`RLock`/`RUnlock` calls and network
writes, in source order, as an event list; `scanDepths` recovers the
(write-depth, read-depth) of the registry mutex at each write. -/

/-- A lock event or a network write, transcribed from `service.go`. -/
inductive Ev where
  | lock
  | unlock
  | rlock
  | runlock
  | send
  deriving DecidableEq

/-- One `Ev.send` per session with a non-nil channel — the send loop of
`BroadcastActiveUsers`. -/
def broadcastSendEvs : List (String × UserSession) → List Ev
  | [] => []
  | p :: rest =>
    match p.2.Conn with
    | some _ => Ev.send :: broadcastSendEvs rest
    | Option.none => broadcastSendEvs rest

/-- The event trace of `BroadcastActiveUsers`: a read-locked snapshot,
then a second read lock held across all the sends (lines 633-656). -/
def broadcastTrace (st : ServerState) : List Ev :=
  [Ev.rlock, Ev.runlock, Ev.rlock] ++
    broadcastSendEvs st.nameToUserSession ++ [Ev.runlock]

/-- Whether `HandleJoin` takes the rejection path. -/
def joinRejects (msg : SignalingMessage) (st : ServerState) : Bool :=
  match lookupA st.nameToUserSession msg.Sender with
  | some s => decide (s.Conn ≠ Option.none)
  | Option.none => false

/-- Whether `HandleCall` passes its precondition check. -/
def callProceeds (msg : SignalingMessage) (st : ServerState) : Bool :=
  match lookupA st.nameToUserSession msg.Sender,
        lookupA st.nameToUserSession msg.Receiver with
  | some s, some r => !(s.InCall || r.InCall)
  | _, _ => false

/-- Whether both parties of `msg` are registered. -/
def pairExists (msg : SignalingMessage) (st : ServerState) : Bool :=
  ((lookupA st.nameToUserSession msg.Sender).isSome &&
   (lookupA st.nameToUserSession msg.Receiver).isSome)

/-- Whether the receiver of `msg` is registered. -/
def receiverExists (msg : SignalingMessage) (st : ServerState) : Bool :=
  (lookupA st.nameToUserSession msg.Receiver).isSome

/-- Whether the disconnecting connection is in the reverse index. -/
def disconnectKnown (conn : Nat) (st : ServerState) : Bool :=
  (lookupA st.sessionIdToName conn).isSome

/-- The events a routed message performs before any roster broadcast
(each handler's own locking and targeted sends, in source order). -/
def routeOwnTrace (_conn : Nat) (msg : SignalingMessage) (st : ServerState) :
    List Ev :=
  match msg.ty with
  | "join" => [Ev.lock, Ev.unlock, Ev.send]
  | "activeUsers" => [Ev.rlock, Ev.runlock, Ev.send]
  | "call" =>
      if callProceeds msg st then [Ev.lock, Ev.unlock, Ev.send]
      else [Ev.lock, Ev.unlock]
  | "cancelCall" =>
      if pairExists msg st then [Ev.lock, Ev.unlock, Ev.send]
      else [Ev.lock, Ev.unlock]
  | "acceptCall" =>
      if receiverExists msg st then [Ev.rlock, Ev.runlock, Ev.send]
      else [Ev.rlock, Ev.runlock]
  | "offer" =>
      if receiverExists msg st then [Ev.rlock, Ev.runlock, Ev.send]
      else [Ev.rlock, Ev.runlock]
  | "answer" =>
      if receiverExists msg st then [Ev.rlock, Ev.runlock, Ev.send]
      else [Ev.rlock, Ev.runlock]
  | "candidate" =>
      if receiverExists msg st then [Ev.rlock, Ev.runlock, Ev.send]
      else [Ev.rlock, Ev.runlock]
  | "hangUp" =>
      if pairExists msg st then [Ev.lock, Ev.unlock, Ev.send]
      else [Ev.lock, Ev.unlock]
  | "leave" => [Ev.lock, Ev.unlock]
  | _ => []

/-- The post-state whose roster a routed message broadcasts, if any. -/
def routeBroadcastState (conn : Nat) (msg : SignalingMessage)
    (st : ServerState) : Option ServerState :=
  match msg.ty with
  | "join" =>
      if joinRejects msg st then Option.none
      else some (HandleJoin conn msg st).1
  | "call" =>
      if callProceeds msg st then some (HandleCall conn msg st).1
      else Option.none
  | "cancelCall" =>
      if pairExists msg st then some (HandleCancelCall conn msg st).1
      else Option.none
  | "hangUp" =>
      if pairExists msg st then some (HandleHangUp conn msg st).1
      else Option.none
  | "leave" =>
      if disconnectKnown conn st then some (HandleDisconnect conn st).1
      else Option.none
  | _ => Option.none

/-- The full event trace of routing one message: the handler's own events
followed by the broadcast's events when a broadcast runs. -/
def routeTrace (conn : Nat) (msg : SignalingMessage) (st : ServerState) :
    List Ev :=
  routeOwnTrace conn msg st ++
    (match routeBroadcastState conn msg st with
     | some st2 => broadcastTrace st2
     | Option.none => [])

/-- Record the (write-depth, read-depth) of the registry mutex at each
send event. -/
def scanDepths : List Ev → Nat → Nat → List (Nat × Nat)
  | [], _, _ => []
  | Ev.lock :: t, w, r => scanDepths t (w + 1) r
  | Ev.unlock :: t, w, r => scanDepths t (w - 1) r
  | Ev.rlock :: t, w, r => scanDepths t w (r + 1)
  | Ev.runlock :: t, w, r => scanDepths t w (r - 1)
  | Ev.send :: t, w, r => (w, r) :: scanDepths t w r

/-- The mutex depths at which a trace performs its sends. -/
def sendDepths (t : List Ev) : List (Nat × Nat) := scanDepths t 0 0

/-- Every send of `t` happens at exactly mutex depth `d`. -/
def sendsAtDepth (t : List Ev) (d : Nat × Nat) : Prop :=
  ∀ p ∈ sendDepths t, p = d

instance (t : List Ev) (d : Nat × Nat) : Decidable (sendsAtDepth t d) :=
  List.decidableBAll _ (sendDepths t)

theorem scanDepths_broadcastSendEvs {l : List (String × UserSession)}
    {t : List Ev} {w r : Nat} {p : Nat × Nat}
    (hp : p ∈ scanDepths (broadcastSendEvs l ++ t) w r) :
    p = (w, r) ∨ p ∈ scanDepths t w r := by
  induction l with
  | nil =>
      simp only [broadcastSendEvs, List.nil_append] at hp
      exact Or.inr hp
  | cons q rest ih =>
      simp only [broadcastSendEvs] at hp
      rcases hq : q.2.Conn with _ | v
      · rw [hq] at hp
        exact ih hp
      · rw [hq] at hp
        simp only [List.cons_append, scanDepths, List.mem_cons] at hp
        rcases hp with hp | hp
        · exact Or.inl hp
        · exact ih hp

/-- C7 counterexample: the claim "the registry lock is never held during a
send" is false at a concrete input — joining carol over the two-user
registry performs the roster-broadcast sends while the read lock is held. -/
theorem C7_counterexample :
    ¬ sendsAtDepth
        (routeTrace 3 ⟨"join", "carol", "", MsgData.none⟩ stTwo) (0, 0) := by
  decide

/-- C7 (amended): every targeted reply or forward happens with the registry
mutex fully released, and no send at all happens under the write lock; but
each roster-broadcast write is performed while holding the registry read
lock (depth 1), and a routed message's trace is exactly the handler's own
events followed by those broadcast events. -/
theorem C7_lock_discipline :
    (∀ (c : Nat) (msg : SignalingMessage) (st : ServerState),
       sendsAtDepth (routeOwnTrace c msg st) (0, 0)) ∧
    (∀ st : ServerState, sendsAtDepth (broadcastTrace st) (0, 1)) ∧
    (∀ (c : Nat) (msg : SignalingMessage) (st : ServerState),
       routeTrace c msg st =
         routeOwnTrace c msg st ++
           (match routeBroadcastState c msg st with
            | some st2 => broadcastTrace st2
            | Option.none => [])) := by
  refine ⟨?_, ?_, fun c msg st => rfl⟩
  · intro c msg st
    unfold routeOwnTrace
    split <;> first
      | decide
      | (split <;> decide)
  · intro st
    intro p hp
    have hp2 : p ∈ scanDepths
        (broadcastSendEvs st.nameToUserSession ++ [Ev.runlock]) 0 1 := hp
    rcases scanDepths_broadcastSendEvs hp2 with h | h
    · exact h
    · simp [scanDepths] at h

/-- C7 witness: the broadcast over the two-user registry sends exactly at
read-lock depth 1. -/
theorem C7_witness : sendsAtDepth (broadcastTrace stTwo) (0, 1) :=
  C7_lock_discipline.2.1 stTwo

/-! ### Registry consistency (C5) -/

/-- Every reverse-index entry names a registered session whose channel is
bound to that very connection. -/
def InvA (st : ServerState) : Prop :=
  ∀ p ∈ st.sessionIdToName,
    Option.map UserSession.Conn (lookupA st.nameToUserSession p.2) =
      some (some p.1)

/-- Distinct reverse-index entries name distinct sessions. -/
def InvB (st : ServerState) : Prop :=
  (st.sessionIdToName.map Prod.snd).Nodup

/-- At most one session per name. -/
def InvC (st : ServerState) : Prop :=
  (st.nameToUserSession.map Prod.fst).Nodup

/-- The part of the spec's registry-consistency invariant this code
actually maintains. -/
def RegistryInv (st : ServerState) : Prop := InvA st ∧ InvB st ∧ InvC st

/-- The consistency invariant exactly as the claim states it: every
reverse entry names a present session, every live session's connection
identity appears in the reverse index exactly once, and names are unique. -/
def claimedInv (st : ServerState) : Bool :=
  (st.sessionIdToName.all
    (fun p => (lookupA st.nameToUserSession p.2).isSome)) &&
  (st.nameToUserSession.all (fun p =>
    match p.2.Conn with
    | some c =>
        (st.sessionIdToName.filter (fun q => q.1 == c)).length == 1
    | Option.none => true)) &&
  decide (st.nameToUserSession.map Prod.fst).Nodup

/-- States reachable from the empty registry by routing inbound messages
and by the gateway's disconnect cleanup. -/
inductive Reachable : ServerState → Prop where
  | empty : Reachable ⟨[], []⟩
  | msg (c : Nat) (m : SignalingMessage) {st : ServerState} :
      Reachable st → Reachable (route c m st).state
  | disc (c : Nat) {st : ServerState} :
      Reachable st → Reachable (HandleDisconnect c st).1

theorem nodup_append_singleton {α : Type} {l : List α} {x : α}
    (hx : x ∉ l) (hl : l.Nodup) : (l ++ [x]).Nodup := by
  induction l with
  | nil => simp
  | cons a rest ih =>
      rcases List.nodup_cons.mp hl with ⟨ha, hrest⟩
      refine List.nodup_cons.mpr ⟨?_, ih (fun h => hx (List.mem_cons_of_mem _ h)) hrest⟩
      intro hmem
      rcases List.mem_append.mp hmem with h | h
      · exact ha h
      · simp only [List.mem_singleton] at h
        exact hx (h ▸ List.mem_cons_self _ _)

theorem inv_install {M : List (String × UserSession)}
    {I : List (Nat × String)} (c : Nat) (name : String)
    (hA : ∀ p ∈ I,
      Option.map UserSession.Conn (lookupA M p.2) = some (some p.1))
    (hB : (I.map Prod.snd).Nodup) (hC : (M.map Prod.fst).Nodup)
    (hNoVal : ∀ p ∈ I, p.2 ≠ name) :
    RegistryInv ⟨insertA M name ⟨name, some c, false⟩, insertA I c name⟩ := by
  refine ⟨?_, ?_, ?_⟩
  · intro p hp
    rcases List.mem_append.mp hp with hl | hr
    · rcases mem_eraseA hl with ⟨hmem, _⟩
      have hpn : p.2 ≠ name := hNoVal p hmem
      show Option.map UserSession.Conn
        (lookupA (insertA M name ⟨name, some c, false⟩) p.2) = some (some p.1)
      rw [lookupA_insertA_ne _ hpn]
      exact hA p hmem
    · simp only [List.mem_singleton] at hr
      subst hr
      show Option.map UserSession.Conn
        (lookupA (insertA M name ⟨name, some c, false⟩) name) = some (some c)
      rw [lookupA_insertA_self]
      rfl
  · show ((eraseA I c ++ [(c, name)]).map Prod.snd).Nodup
    rw [List.map_append]
    apply nodup_append_singleton
    · intro hmem
      rcases List.mem_map.mp hmem with ⟨q, hq, hqv⟩
      rcases mem_eraseA hq with ⟨hqmem, _⟩
      exact hNoVal q hqmem hqv
    · exact List.Nodup.sublist ((eraseA_sublist I c).map Prod.snd) hB
  · show ((eraseA M name ++ [(name, _)]).map Prod.fst).Nodup
    rw [List.map_append]
    apply nodup_append_singleton
    · intro hmem
      rcases List.mem_map.mp hmem with ⟨q, hq, hqv⟩
      rcases mem_eraseA hq with ⟨_, hqk⟩
      exact hqk hqv
    · exact List.Nodup.sublist ((eraseA_sublist M name).map Prod.fst) hC

theorem inv_join (c : Nat) (m : SignalingMessage) {st : ServerState}
    (h : RegistryInv st) : RegistryInv (HandleJoin c m st).1 := by
  obtain ⟨hA, hB, hC⟩ := h
  cases hname : lookupA st.nameToUserSession m.Sender with
  | none =>
      have hred : (HandleJoin c m st).1 =
          ⟨insertA st.nameToUserSession m.Sender ⟨m.Sender, some c, false⟩,
           insertA st.sessionIdToName c m.Sender⟩ := by
        simp [HandleJoin, joinInstall, hname]
      rw [hred]
      refine inv_install c m.Sender hA hB hC ?_
      intro p hp hpv
      have h2 := hA p hp
      rw [hpv, hname] at h2
      cases h2
  | some s =>
      cases hconn : s.Conn with
      | none =>
          have hred : (HandleJoin c m st).1 =
              ⟨insertA (eraseA st.nameToUserSession m.Sender) m.Sender
                 ⟨m.Sender, some c, false⟩,
               insertA (eraseVal st.sessionIdToName m.Sender) c m.Sender⟩ := by
            simp [HandleJoin, joinInstall, hname, hconn]
          rw [hred]
          refine inv_install c m.Sender ?_ ?_ ?_ ?_
          · intro p hp
            rcases mem_eraseVal hp with ⟨hmem, hne⟩
            rw [lookupA_eraseA_ne hne]
            exact hA p hmem
          · exact List.Nodup.sublist
              ((eraseVal_sublist st.sessionIdToName m.Sender).map Prod.snd) hB
          · exact List.Nodup.sublist
              ((eraseA_sublist st.nameToUserSession m.Sender).map Prod.fst) hC
          · intro p hp
            exact (mem_eraseVal hp).2
      | some v =>
          have hred : (HandleJoin c m st).1 = st := by
            simp [HandleJoin, hname, hconn]
          rw [hred]
          exact ⟨hA, hB, hC⟩

theorem inv_setInCall2 {M : List (String × UserSession)}
    {I : List (Nat × String)} (a b : String) (v : Bool)
    (h : RegistryInv ⟨M, I⟩) :
    RegistryInv ⟨setInCall (setInCall M a v) b v, I⟩ := by
  obtain ⟨hA, hB, hC⟩ := h
  refine ⟨?_, hB, ?_⟩
  · intro p hp
    show Option.map UserSession.Conn
      (lookupA (setInCall (setInCall M a v) b v) p.2) = some (some p.1)
    rw [conn_setInCall, conn_setInCall]
    exact hA p hp
  · show ((setInCall (setInCall M a v) b v).map Prod.fst).Nodup
    rw [keys_setInCall, keys_setInCall]
    exact hC

theorem inv_call (c : Nat) (m : SignalingMessage) {st : ServerState}
    (h : RegistryInv st) : RegistryInv (HandleCall c m st).1 := by
  cases hs : lookupA st.nameToUserSession m.Sender with
  | none => simpa [HandleCall, hs] using h
  | some s =>
      cases hr : lookupA st.nameToUserSession m.Receiver with
      | none => simpa [HandleCall, hs, hr] using h
      | some r =>
          cases hbusy : s.InCall || r.InCall with
          | true => simpa [HandleCall, hs, hr, hbusy] using h
          | false =>
              have hred : (HandleCall c m st).1 =
                  ⟨setInCall (setInCall st.nameToUserSession m.Sender true)
                     m.Receiver true, st.sessionIdToName⟩ := by
                simp [HandleCall, hs, hr, hbusy]
              rw [hred]
              exact inv_setInCall2 _ _ _ h

theorem inv_cancel (c : Nat) (m : SignalingMessage) {st : ServerState}
    (h : RegistryInv st) : RegistryInv (HandleCancelCall c m st).1 := by
  cases hs : lookupA st.nameToUserSession m.Sender with
  | none => simpa [HandleCancelCall, hs] using h
  | some s =>
      cases hr : lookupA st.nameToUserSession m.Receiver with
      | none => simpa [HandleCancelCall, hs, hr] using h
      | some r =>
          have hred : (HandleCancelCall c m st).1 =
              ⟨setInCall (setInCall st.nameToUserSession m.Sender false)
                 m.Receiver false, st.sessionIdToName⟩ := by
            simp [HandleCancelCall, hs, hr]
          rw [hred]
          exact inv_setInCall2 _ _ _ h

theorem inv_hangUp (c : Nat) (m : SignalingMessage) {st : ServerState}
    (h : RegistryInv st) : RegistryInv (HandleHangUp c m st).1 := by
  cases hs : lookupA st.nameToUserSession m.Sender with
  | none => simpa [HandleHangUp, hs] using h
  | some s =>
      cases hr : lookupA st.nameToUserSession m.Receiver with
      | none => simpa [HandleHangUp, hs, hr] using h
      | some r =>
          have hred : (HandleHangUp c m st).1 =
              ⟨setInCall (setInCall st.nameToUserSession m.Sender false)
                 m.Receiver false, st.sessionIdToName⟩ := by
            simp [HandleHangUp, hs, hr]
          rw [hred]
          exact inv_setInCall2 _ _ _ h

theorem HandleAcceptCall_state (c : Nat) (m : SignalingMessage)
    (st : ServerState) : (HandleAcceptCall c m st).1 = st := by
  cases hr : lookupA st.nameToUserSession m.Receiver <;>
    simp [HandleAcceptCall, hr]

theorem HandleOffer_state (c : Nat) (m : SignalingMessage)
    (st : ServerState) : (HandleOffer c m st).1 = st := by
  cases hr : lookupA st.nameToUserSession m.Receiver <;>
    simp [HandleOffer, hr]

theorem HandleAnswer_state (c : Nat) (m : SignalingMessage)
    (st : ServerState) : (HandleAnswer c m st).1 = st := by
  cases hr : lookupA st.nameToUserSession m.Receiver <;>
    simp [HandleAnswer, hr]

theorem HandleIceCandidate_state (c : Nat) (m : SignalingMessage)
    (st : ServerState) : (HandleIceCandidate c m st).1 = st := by
  cases hr : lookupA st.nameToUserSession m.Receiver <;>
    simp [HandleIceCandidate, hr]

theorem inv_disc (c : Nat) {st : ServerState} (h : RegistryInv st) :
    RegistryInv (HandleDisconnect c st).1 := by
  obtain ⟨hA, hB, hC⟩ := h
  cases hn : lookupA st.sessionIdToName c with
  | none => simpa [HandleDisconnect, hn] using And.intro hA (And.intro hB hC)
  | some n =>
      have hred : (HandleDisconnect c st).1 =
          ⟨eraseA st.nameToUserSession n, eraseA st.sessionIdToName c⟩ := by
        simp [HandleDisconnect, hn]
      rw [hred]
      refine ⟨?_, ?_, ?_⟩
      · intro p hp
        rcases mem_eraseA hp with ⟨hmem, hpc⟩
        have hcn : (c, n) ∈ st.sessionIdToName := lookupA_mem hn
        have hpn : p.2 ≠ n := by
          intro hpn
          have hpe : p = (c, n) :=
            List.inj_on_of_nodup_map hB hmem hcn hpn
          exact hpc (congrArg Prod.fst hpe)
        show Option.map UserSession.Conn
          (lookupA (eraseA st.nameToUserSession n) p.2) = some (some p.1)
        rw [lookupA_eraseA_ne hpn]
        exact hA p hmem
      · exact List.Nodup.sublist
          ((eraseA_sublist st.sessionIdToName c).map Prod.snd) hB
      · exact List.Nodup.sublist
          ((eraseA_sublist st.nameToUserSession n).map Prod.fst) hC

theorem inv_route (c : Nat) (m : SignalingMessage) {st : ServerState}
    (h : RegistryInv st) : RegistryInv (route c m st).state := by
  unfold route
  split
  · exact inv_join c m h
  · exact h
  · exact inv_call c m h
  · exact inv_cancel c m h
  · show RegistryInv (HandleAcceptCall c m st).1
    rw [HandleAcceptCall_state c m st]
    exact h
  · show RegistryInv (HandleOffer c m st).1
    rw [HandleOffer_state c m st]
    exact h
  · show RegistryInv (HandleAnswer c m st).1
    rw [HandleAnswer_state c m st]
    exact h
  · show RegistryInv (HandleIceCandidate c m st).1
    rw [HandleIceCandidate_state c m st]
    exact h
  · exact inv_hangUp c m h
  · exact inv_disc c h
  · exact h

/-- The registry after join(conn 1, alice); join(conn 1, bob);
disconnect(conn 1) — the same connection registered two names, then left. -/
def stCex : ServerState :=
  (HandleDisconnect 1
    (route 1 ⟨"join", "bob", "", MsgData.none⟩
      (route 1 ⟨"join", "alice", "", MsgData.none⟩ stEmpty).state).state).1

/-- C5 counterexample: `stCex` is reachable from the empty registry, yet
alice's session is live while her connection identity appears nowhere in
the reverse index — the claimed invariant fails. -/
theorem C5_counterexample : Reachable stCex ∧ claimedInv stCex = false :=
  ⟨Reachable.disc 1 (Reachable.msg 1 _ (Reachable.msg 1 _ Reachable.empty)),
   by decide⟩

/-- C5 (amended): in every reachable state, each reverse-index entry names
a registered session (indeed one whose channel is that very connection),
distinct reverse entries name distinct sessions, and at most one session
exists per name.  (The claim's further conjunct — every live session's
connection identity appears in the reverse index — is refuted by
`stCex`.) -/
theorem C5_registry_consistency (st : ServerState) (h : Reachable st) :
    RegistryInv st := by
  induction h with
  | empty =>
      exact ⟨fun p hp => absurd hp (List.not_mem_nil p),
             List.nodup_nil, List.nodup_nil⟩
  | msg c m _ ih => exact inv_route c m ih
  | disc c _ ih => exact inv_disc c ih

/-- C5 witness: the invariant holds in the reachable one-user state. -/
theorem C5_witness :
    RegistryInv (route 1 ⟨"join", "alice", "", MsgData.none⟩ stEmpty).state :=
  C5_registry_consistency _ (Reachable.msg 1 _ Reachable.empty)

/-- A one-user registry whose session has lost its channel (stale), with a
leftover reverse-index entry. -/
def stStale : ServerState :=
  ⟨[("alice", ⟨"alice", Option.none, true⟩)], [(9, "alice")]⟩

/-- C4 witness: alice rejoins from connection 5 over her stale session. -/
theorem C4_witness :
    lookupA (HandleJoin 5 ⟨"join", "alice", "", MsgData.none⟩
        stStale).1.nameToUserSession "alice" =
      some ⟨"alice", some 5, false⟩ ∧
    lookupA (HandleJoin 5 ⟨"join", "alice", "", MsgData.none⟩
        stStale).1.sessionIdToName 5 = some "alice" ∧
    (HandleJoin 5 ⟨"join", "alice", "", MsgData.none⟩ stStale).2 =
      Effect.reply 5 ⟨"join", "", "alice", MsgData.joinResult true⟩ ::
        BroadcastActiveUsers
          (HandleJoin 5 ⟨"join", "alice", "", MsgData.none⟩ stStale).1 := by
  have h := C4_rejoin_after_stale stStale 5
    ⟨"join", "alice", "", MsgData.none⟩
    (Or.inr ⟨⟨"alice", Option.none, true⟩, by decide, rfl⟩)
    (by decide)
  exact ⟨h.1, h.2.1, h.2.2.2.2⟩

/-- C1 witness: alice calls bob in `stTwo`, then bob hangs up on alice. -/
theorem C1_witness :
    inCallOf (HandleCall 1 ⟨"call", "alice", "bob", MsgData.none⟩ stTwo).1
        "alice" = some true ∧
    inCallOf (HandleCall 1 ⟨"call", "alice", "bob", MsgData.none⟩ stTwo).1
        "bob" = some true ∧
    (HandleCall 1 ⟨"call", "alice", "bob", MsgData.none⟩ stTwo).2.head? =
      some (Effect.send (some 2) ⟨"call", "alice", "bob", MsgData.none⟩) ∧
    inCallOf (HandleHangUp 2 ⟨"hangUp", "bob", "alice", MsgData.none⟩
        (HandleCall 1 ⟨"call", "alice", "bob", MsgData.none⟩ stTwo).1).1
        "alice" = some false ∧
    inCallOf (HandleHangUp 2 ⟨"hangUp", "bob", "alice", MsgData.none⟩
        (HandleCall 1 ⟨"call", "alice", "bob", MsgData.none⟩ stTwo).1).1
        "bob" = some false := by
  have h := C1_call_symmetry stTwo 1 2 2 "alice" "bob" "bob" "alice"
    MsgData.none MsgData.none MsgData.none
    ⟨"alice", some 1, false⟩ ⟨"bob", some 2, false⟩
    (by decide) (by decide) rfl (by decide) rfl
    (Or.inr ⟨rfl, rfl⟩)
  exact ⟨h.1, h.2.1, h.2.2.1, h.2.2.2.1, h.2.2.2.2.1⟩

/-- C8 witness: disconnecting connection 1 (alice) twice in `stTwo`. -/
theorem C8_witness :
    HandleDisconnect 1 (HandleDisconnect 1 stTwo).1 =
      ((HandleDisconnect 1 stTwo).1, []) ∧
    (HandleDisconnect 1 stTwo).1 =
      ⟨eraseA stTwo.nameToUserSession "alice",
       eraseA stTwo.sessionIdToName 1⟩ :=
  ⟨(C8_leave_idempotent stTwo 1).1,
   ((C8_leave_idempotent stTwo 1).2.1 "alice" (by decide)).1⟩

end Webrtc
